import Mathlib

/-!
Shallow embedding of the Horovod negotiation/execution scheduler core
(`operations.cc`), the Adasum hierarchical allreduce arithmetic
(`AdasumCudaAllreduceOp::NcclHierarchical`), and the TensorFlow timeline
writer (`timeline.cc`), together with theorems checking the repository's
specification against the embedded code.

Machine integers (`int`, `int64_t`, `size_t`) are modelled as `Int` (all
quantities in scope are provably far from the 64-bit overflow boundary),
fallible paths return explicit `Status` values, and the stateful enqueue /
shutdown paths are modelled as explicit state-passing functions over a
`HorovodGlobalState` record.
-/

/-! ## Status values (operations.cc, common.h)

`Status` carries a status type and a reason string.  The two error
constants relevant here are `SHUT_DOWN_ERROR` (an `UnknownError`) and
`DUPLICATE_NAME_ERROR` (an `InvalidArgument`), from operations.cc lines
134-144. -/

inductive StatusType where
  | OK
  | UnknownError
  | Aborted
  | InvalidArgument
  | PreconditionError
  | InProgress
  deriving DecidableEq, Repr

structure Status where
  type : StatusType
  reason : String
  deriving DecidableEq, Repr

def Status.statusOK : Status := ⟨StatusType.OK, ""⟩

def Status.unknownError (msg : String) : Status := ⟨StatusType.UnknownError, msg⟩

def Status.invalidArgument (msg : String) : Status := ⟨StatusType.InvalidArgument, msg⟩

def Status.preconditionError (msg : String) : Status := ⟨StatusType.PreconditionError, msg⟩

def Status.in_progress (s : Status) : Bool := s.type = StatusType.InProgress

def Status.ok (s : Status) : Bool := s.type = StatusType.OK

def SHUT_DOWN_ERROR : Status :=
  Status.unknownError
    "Horovod has been shut down. This was caused by an exception on one of the ranks or an attempt to allreduce, allgather or broadcast a tensor after one of the ranks finished execution."

def DUPLICATE_NAME_ERROR : Status :=
  Status.invalidArgument
    "Requested to allreduce, allgather, or broadcast a tensor with the same name as another tensor that is currently being processed."

def NOT_INITIALIZED_ERROR : Status :=
  Status.preconditionError "Horovod has not been initialized; use hvd.init()."

/-! ## Hierarchical allreduce arithmetic
(`AdasumCudaAllreduceOp::NcclHierarchical`, src/unnamed/part_000)

The functions below embed, one for one, the scalar computations of
`NcclHierarchical`: the fusion-buffer padding (lines 63-69), the
divisible/remainder split (lines 83-113), and the per-entry
`tensor_counts` bookkeeping for the fused MPI allreduce (lines 169-202).
All C++ values involved are non-negative `int64_t`/`int`; `Int` is used
so that the intermediate `right_boundary - left_boundary` differences
(which can be negative before the clamp with 0) are modelled exactly. -/

/-- Padding of line 67: `num_elements = ((num_elements + div - 1) / div) * div`.
C++ `int64_t` division truncates toward zero; every application below has a
non-negative dividend and positive divisor, where truncating and Euclidean
division agree, so Lean's `Int` division is a faithful model. -/
def padNumElements (num_elements dividing_unit : Int) : Int :=
  ((num_elements + dividing_unit - 1) / dividing_unit) * dividing_unit

/-- Lines 63-69: when the cluster is homogeneous and more than one entry is
fused, `num_elements` is padded to a multiple of
`local_size * FUSION_BUFFER_ATOMIC_UNIT`.  The atomic-unit constant lives in
a header that is not part of the sources here, so it is an explicit
`atomic_unit` argument. -/
def adjustedNumElements (is_homogeneous : Bool) (num_entries : Nat)
    (num_elements local_size atomic_unit : Int) : Int :=
  if is_homogeneous ∧ 1 < num_entries then
    padNumElements num_elements (local_size * atomic_unit)
  else num_elements

/-- Line 68: `buffer_len = num_elements * element_size` after padding. -/
def bufferLenAfterPad (num_elements dividing_unit element_size : Int) : Int :=
  padNumElements num_elements dividing_unit * element_size

/-- Lines 83-85: `num_elements_per_rank = IsHomogeneous() ? num_elements / local_size : 0`. -/
def numElementsPerRank (is_homogeneous : Bool) (num_elements local_size : Int) : Int :=
  if is_homogeneous then num_elements / local_size else 0

/-- Lines 92-94: `num_elements_remaining = IsHomogeneous() ? num_elements % local_size : num_elements`. -/
def numElementsRemaining (is_homogeneous : Bool) (num_elements local_size : Int) : Int :=
  if is_homogeneous then num_elements % local_size else num_elements

/-- Lines 104-105: `root_rank = IsHomogeneous() ? local_size - 1 : 0`. -/
def rootRank (is_homogeneous : Bool) (local_size : Int) : Int :=
  if is_homogeneous then local_size - 1 else 0

/-- Lines 108-110: `total_num_elements = is_root_rank ? per_rank + remaining : per_rank`. -/
def totalNumElements (is_root_rank : Bool) (per_rank remaining : Int) : Int :=
  if is_root_rank then per_rank + remaining else per_rank

/-- Lines 176-186: the `tensor_counts[i]` value one rank computes for one
entry.  `base` is the overlap of the entry's element interval
`[sofar, sofar + e)` with the rank-owned slice
`[local_rank * per_rank, (local_rank+1) * per_rank)`; the root rank
(`local_rank == local_size - 1`) additionally counts the overlap with the
remainder region past `local_size * per_rank` when the entry reaches it. -/
def tensorCountAt (local_rank local_size per_rank sofar e : Int) : Int :=
  let base :=
    max (min (sofar + e) ((local_rank + 1) * per_rank)
          - max sofar (local_rank * per_rank)) 0
  let extra :=
    if local_size * per_rank ≤ sofar + e then
      max ((sofar + e) - max sofar (local_size * per_rank)) 0
    else 0
  base + (if local_rank = local_size - 1 then extra else 0)

/-- Lines 169-190 (homogeneous branch): the whole `tensor_counts` vector,
walking the entries and threading `num_elements_sofar`. -/
def tensorCountsHom (local_rank local_size per_rank sofar : Int) :
    List Int → List Int
  | [] => []
  | e :: rest =>
      tensorCountAt local_rank local_size per_rank sofar e ::
        tensorCountsHom local_rank local_size per_rank (sofar + e) rest

/-- Lines 191-202 (non-homogeneous branch): the root rank owns every entry,
all other ranks own nothing (the vector is zero-initialized). -/
def tensorCountsNonHom (is_root_rank : Bool) (es : List Int) : List Int :=
  if is_root_rank then es else es.map (fun _ => 0)

/-! ### Padding lemmas shared by the claims about the split. -/

theorem padNumElements_dvd (n d : Int) : d ∣ padNumElements n d :=
  dvd_mul_left d ((n + d - 1) / d)

theorem le_padNumElements (n d : Int) (hd : 0 < d) : n ≤ padNumElements n d := by
  unfold padNumElements
  have h2 := Int.ediv_add_emod (n + d - 1) d
  have h3 := Int.emod_nonneg (n + d - 1) (by omega : d ≠ 0)
  have h4 := Int.emod_lt_of_pos (n + d - 1) hd
  have h5 : ((n + d - 1) / d) * d = d * ((n + d - 1) / d) := mul_comm _ _
  omega

theorem padNumElements_lt (n d : Int) (hd : 0 < d) : padNumElements n d < n + d := by
  unfold padNumElements
  have h2 := Int.ediv_add_emod (n + d - 1) d
  have h3 := Int.emod_nonneg (n + d - 1) (by omega : d ≠ 0)
  have h5 : ((n + d - 1) / d) * d = d * ((n + d - 1) / d) := mul_comm _ _
  omega

theorem padNumElements_min (n d m : Int) (hd : 0 < d) (hm : d ∣ m) (hge : n ≤ m) :
    padNumElements n d ≤ m := by
  obtain ⟨j, rfl⟩ := hm
  unfold padNumElements
  have h2 := Int.ediv_add_emod (n + d - 1) d
  have h3 := Int.emod_nonneg (n + d - 1) (by omega : d ≠ 0)
  have h4 := Int.emod_lt_of_pos (n + d - 1) hd
  set q := (n + d - 1) / d with hq
  have hlt : q * d < (j + 1) * d := by nlinarith
  have hqj : q ≤ j := by
    by_contra hc
    push_neg at hc
    nlinarith
  nlinarith

theorem padNumElements_nonneg (n d : Int) (hn : 0 ≤ n) (hd : 0 < d) :
    0 ≤ padNumElements n d :=
  le_trans hn (le_padNumElements n d hd)

theorem padNumElements_eq_of_dvd (n d : Int) (hn : 0 ≤ n) (hd : 0 < d)
    (hdvd : d ∣ n) : padNumElements n d = n :=
  le_antisymm (padNumElements_min n d n hd hdvd le_rfl) (le_padNumElements n d hd)

/-- C4: in the hierarchical allreduce, for every `num_elements ≥ 0` and
`local_size ≥ 1`, `num_elements_per_rank` is `num_elements / local_size`
when homogeneous and `0` otherwise, `num_elements_remaining` is
`num_elements % local_size` when homogeneous and `num_elements` otherwise,
`root_rank` is `local_size - 1` when homogeneous and `0` otherwise, and the
element total owned by a local rank is `per_rank + remaining` for the root
rank and `per_rank` for every other rank. -/
theorem hierarchical_split_formulas (is_homogeneous : Bool)
    (num_elements local_size local_rank : Int)
    (hn : 0 ≤ num_elements) (hL : 1 ≤ local_size) :
    numElementsPerRank is_homogeneous num_elements local_size
        = (if is_homogeneous then num_elements / local_size else 0) ∧
    numElementsRemaining is_homogeneous num_elements local_size
        = (if is_homogeneous then num_elements % local_size else num_elements) ∧
    rootRank is_homogeneous local_size
        = (if is_homogeneous then local_size - 1 else 0) ∧
    totalNumElements
        (local_rank = rootRank is_homogeneous local_size)
        (numElementsPerRank is_homogeneous num_elements local_size)
        (numElementsRemaining is_homogeneous num_elements local_size)
        = (if local_rank = rootRank is_homogeneous local_size then
            numElementsPerRank is_homogeneous num_elements local_size
              + numElementsRemaining is_homogeneous num_elements local_size
          else numElementsPerRank is_homogeneous num_elements local_size) := by
  refine ⟨rfl, rfl, rfl, ?_⟩
  by_cases h : local_rank = rootRank is_homogeneous local_size <;>
    simp [totalNumElements, h]

/-- Closed witness for `hierarchical_split_formulas` at
`num_elements = 6000`, `local_size = 4`, `local_rank = 3`, homogeneous. -/
theorem hierarchical_split_formulas_witness :
    numElementsPerRank true 6000 4 = (if true then (6000 : Int) / 4 else 0) ∧
    numElementsRemaining true 6000 4 = (if true then (6000 : Int) % 4 else 6000) ∧
    rootRank true 4 = (if true then (4 : Int) - 1 else 0) ∧
    totalNumElements ((3 : Int) = rootRank true 4)
        (numElementsPerRank true 6000 4) (numElementsRemaining true 6000 4)
        = (if (3 : Int) = rootRank true 4 then
            numElementsPerRank true 6000 4 + numElementsRemaining true 6000 4
          else numElementsPerRank true 6000 4) :=
  hierarchical_split_formulas true 6000 4 3 (by decide) (by decide)

/-- C5: when the cluster is homogeneous and more than one entry is fused,
the padded `num_elements` is `((n + div - 1) / div) * div` with
`div = local_size * FUSION_BUFFER_ATOMIC_UNIT`: it is the smallest multiple
of `div` that is `≥ n`, satisfies `padded < n + div`, is divisible by
`local_size` (so the subsequent remainder `padded % local_size` is 0), and
`buffer_len` becomes the padded count times the element size. -/
theorem fusion_padding_properties (n local_size atomic_unit element_size : Int)
    (hn : 0 ≤ n) (hL : 1 ≤ local_size) (hau : 1 ≤ atomic_unit) :
    (local_size * atomic_unit) ∣ padNumElements n (local_size * atomic_unit) ∧
    n ≤ padNumElements n (local_size * atomic_unit) ∧
    padNumElements n (local_size * atomic_unit) < n + local_size * atomic_unit ∧
    (∀ m : Int, (local_size * atomic_unit) ∣ m → n ≤ m →
        padNumElements n (local_size * atomic_unit) ≤ m) ∧
    local_size ∣ padNumElements n (local_size * atomic_unit) ∧
    padNumElements n (local_size * atomic_unit) % local_size = 0 ∧
    (∀ num_entries : Nat, 1 < num_entries →
        adjustedNumElements true num_entries n local_size atomic_unit
          = padNumElements n (local_size * atomic_unit)) ∧
    bufferLenAfterPad n (local_size * atomic_unit) element_size
        = padNumElements n (local_size * atomic_unit) * element_size := by
  have hd : 0 < local_size * atomic_unit := by nlinarith
  have hLdvd : local_size ∣ padNumElements n (local_size * atomic_unit) :=
    dvd_trans (dvd_mul_right local_size atomic_unit) (padNumElements_dvd n _)
  refine ⟨padNumElements_dvd n _, le_padNumElements n _ hd,
    padNumElements_lt n _ hd,
    fun m hm hge => padNumElements_min n _ m hd hm hge,
    hLdvd, Int.emod_eq_zero_of_dvd hLdvd, ?_, rfl⟩
  intro num_entries hk
  unfold adjustedNumElements
  simp [hk]

/-- Closed witness for `fusion_padding_properties` at `n = 6000`,
`local_size = 4`, `atomic_unit = 64`, `element_size = 4`:
`div = 256` and the padded count is `6144`. -/
theorem fusion_padding_properties_witness :
    padNumElements 6000 ((4 : Int) * 64) = 6144 ∧
    ((4 : Int) * 64) ∣ padNumElements 6000 ((4 : Int) * 64) ∧
    (6000 : Int) ≤ padNumElements 6000 ((4 : Int) * 64) ∧
    padNumElements 6000 ((4 : Int) * 64) < 6000 + (4 : Int) * 64 ∧
    padNumElements 6000 ((4 : Int) * 64) % 4 = 0 ∧
    adjustedNumElements true 3 6000 4 64 = padNumElements 6000 ((4 : Int) * 64) := by
  have h := fusion_padding_properties 6000 4 64 4 (by decide) (by decide) (by decide)
  exact ⟨by decide, h.1, h.2.1, h.2.2.1, h.2.2.2.2.2.1,
    h.2.2.2.2.2.2.1 3 (by decide)⟩

/-! ### Conservation of `tensor_counts` across local ranks (C1). -/

/-- Additivity of the clamped interval-overlap length over an interval split
`[lo, hi) = [lo, mid) ∪ [mid, hi)`. -/
theorem clamped_overlap_add (a b lo mid hi : Int) (h1 : lo ≤ mid) (h2 : mid ≤ hi) :
    max (min b mid - max a lo) 0 + max (min b hi - max a mid) 0
      = max (min b hi - max a lo) 0 := by
  omega

/-- Summing the rank-owned overlaps of `[a, b)` over the local ranks
`0, …, L-1` yields the overlap with the whole divisible region `[0, L*p)`. -/
theorem sum_rank_overlaps (a b p : Int) (hp : 0 ≤ p) (L : Nat) :
    ∑ r ∈ Finset.range L,
        max (min b (((r : Int) + 1) * p) - max a ((r : Int) * p)) 0
      = max (min b ((L : Int) * p) - max a 0) 0 := by
  induction L with
  | zero =>
      simp only [Finset.range_zero, Finset.sum_empty, Nat.cast_zero, zero_mul]
      omega
  | succ L ih =>
      rw [Finset.sum_range_succ, ih]
      have hL0 : (0 : Int) ≤ (L : Int) * p := by positivity
      have hLs : (L : Int) * p ≤ ((L : Int) + 1) * p := by nlinarith
      have := clamped_overlap_add a b 0 ((L : Int) * p) (((L : Int) + 1) * p) hL0 hLs
      push_cast
      omega

/-- Summing one entry's `tensor_counts` contribution over all local ranks
recovers the entry's element count exactly: the divisible-region overlaps
tile `[0, L*p)` and the root rank picks up the remainder overlap. -/
theorem sum_tensorCountAt (L : Nat) (hL : 1 ≤ L) (p sofar e : Int)
    (hp : 0 ≤ p) (hs : 0 ≤ sofar) (he : 0 ≤ e) :
    ∑ r ∈ Finset.range L, tensorCountAt (r : Int) (L : Int) p sofar e = e := by
  unfold tensorCountAt
  rw [Finset.sum_add_distrib, sum_rank_overlaps sofar (sofar + e) p hp L]
  have hroot : ∀ r ∈ Finset.range L,
      (if (r : Int) = (L : Int) - 1 then
        (if (L : Int) * p ≤ sofar + e then
          max ((sofar + e) - max sofar ((L : Int) * p)) 0 else 0) else 0)
      = (if r = L - 1 then
        (if (L : Int) * p ≤ sofar + e then
          max ((sofar + e) - max sofar ((L : Int) * p)) 0 else 0) else 0) := by
    intro r hr
    congr 1
    simp only [eq_iff_iff]
    omega
  rw [Finset.sum_congr rfl hroot,
    Finset.sum_ite_eq' (Finset.range L) (L - 1)]
  have hmem : L - 1 ∈ Finset.range L := Finset.mem_range.mpr (by omega)
  rw [if_pos hmem]
  have hL0 : (0 : Int) ≤ (L : Int) * p := by positivity
  rcases le_or_lt ((L : Int) * p) (sofar + e) with hcase | hcase
  · rw [if_pos hcase]; omega
  · rw [if_neg (not_le.mpr hcase)]; omega

/-- `tensorCountsHom` has one count per entry. -/
theorem tensorCountsHom_length (local_rank local_size per_rank sofar : Int)
    (es : List Int) :
    (tensorCountsHom local_rank local_size per_rank sofar es).length = es.length := by
  induction es generalizing sofar with
  | nil => rfl
  | cons e rest ih => simp [tensorCountsHom, ih]

/-- Per-index conservation over a whole entry list, threading the prefix sum. -/
theorem sum_tensorCountsHom_getD (L : Nat) (hL : 1 ≤ L) (p : Int) (hp : 0 ≤ p) :
    ∀ (es : List Int) (sofar : Int), 0 ≤ sofar → (∀ e ∈ es, 0 ≤ e) →
    ∀ i, i < es.length →
    ∑ r ∈ Finset.range L,
        (tensorCountsHom (r : Int) (L : Int) p sofar es).getD i 0
      = es.getD i 0 := by
  intro es
  induction es with
  | nil => intro sofar _ _ i hi; simp at hi
  | cons e rest ih =>
      intro sofar hs hes i hi
      cases i with
      | zero =>
          simp only [tensorCountsHom, List.getD_cons_zero]
          exact sum_tensorCountAt L hL p sofar e hp hs (hes e (List.mem_cons_self e rest))
      | succ i =>
          simp only [tensorCountsHom, List.getD_cons_succ]
          exact ih (sofar + e)
            (by have := hes e (List.mem_cons_self e rest); omega)
            (fun x hx => hes x (List.mem_cons_of_mem e hx))
            i (by simpa using hi)

/-- C1: in the hierarchical allreduce on a homogeneous cluster, for every
non-empty list of fused entry element counts and every `local_size ≥ 1`,
the `tensor_counts[i]` values computed by the local ranks (the root rank
`local_size - 1` additionally counting the overlap with the remainder
region past `local_size * num_elements_per_rank`) sum to exactly the i-th
entry's element count — no element is lost or duplicated across the
divisible/remainder split.  In particular, for entries of 1000/2000/3000
elements and `local_size = 4` (whenever the fusion atomic unit keeps the
6000-element total unpadded, as the specification's example assumes),
`num_elements_per_rank = 1500`, the remainder is 0, and each rank's owned
slice maps back to the correct source-tensor offsets. -/
theorem adasum_tensor_counts_conservation :
    (∀ (es : List Int) (local_size : Nat) (atomic_unit : Int),
      es ≠ [] → (∀ e ∈ es, 0 ≤ e) → 1 ≤ local_size → 1 ≤ atomic_unit →
      ∀ i, i < es.length →
        ∑ r ∈ Finset.range local_size,
          (tensorCountsHom (r : Int) (local_size : Int)
            (numElementsPerRank true
              (adjustedNumElements true es.length es.sum (local_size : Int) atomic_unit)
              (local_size : Int)) 0 es).getD i 0
          = es.getD i 0) ∧
    (∀ atomic_unit : Int, 1 ≤ atomic_unit → (4 * atomic_unit) ∣ 6000 →
      adjustedNumElements true ([1000, 2000, 3000] : List Int).length
          ([1000, 2000, 3000] : List Int).sum 4 atomic_unit = 6000 ∧
      numElementsPerRank true 6000 4 = 1500 ∧
      numElementsRemaining true 6000 4 = 0 ∧
      tensorCountsHom 0 4 1500 0 [1000, 2000, 3000] = [1000, 500, 0] ∧
      tensorCountsHom 1 4 1500 0 [1000, 2000, 3000] = [0, 1500, 0] ∧
      tensorCountsHom 2 4 1500 0 [1000, 2000, 3000] = [0, 0, 1500] ∧
      tensorCountsHom 3 4 1500 0 [1000, 2000, 3000] = [0, 0, 1500]) := by
  constructor
  · intro es local_size atomic_unit hne hes hL hau i hi
    have hsum : 0 ≤ es.sum := List.sum_nonneg hes
    have hd : 0 < (local_size : Int) * atomic_unit := by
      have : (1 : Int) ≤ (local_size : Int) := by exact_mod_cast hL
      nlinarith
    have hadj : 0 ≤ adjustedNumElements true es.length es.sum (local_size : Int) atomic_unit := by
      unfold adjustedNumElements
      split
      · exact padNumElements_nonneg es.sum _ hsum hd
      · exact hsum
    have hper : 0 ≤ numElementsPerRank true
        (adjustedNumElements true es.length es.sum (local_size : Int) atomic_unit)
        (local_size : Int) := by
      unfold numElementsPerRank
      simp only [if_pos rfl]
      exact Int.ediv_nonneg hadj (by exact_mod_cast Nat.zero_le local_size)
    exact sum_tensorCountsHom_getD local_size hL _ hper es 0 le_rfl hes i hi
  · intro atomic_unit hau hdvd
    have hd : 0 < (4 : Int) * atomic_unit := by nlinarith
    have hadj : adjustedNumElements true ([1000, 2000, 3000] : List Int).length
        ([1000, 2000, 3000] : List Int).sum 4 atomic_unit = 6000 := by
      unfold adjustedNumElements
      rw [if_pos ⟨rfl, by decide⟩]
      have hsum : ([1000, 2000, 3000] : List Int).sum = 6000 := by decide
      rw [hsum]
      exact padNumElements_eq_of_dvd 6000 (4 * atomic_unit) (by decide) hd hdvd
    exact ⟨hadj, by decide, by decide, by decide, by decide, by decide, by decide⟩

/-- Closed witness for `adasum_tensor_counts_conservation`: the
1000/2000/3000 example with `local_size = 4`, `atomic_unit = 125` (so the
padding unit 500 divides 6000), checking entry 1's total of 2000. -/
theorem adasum_tensor_counts_conservation_witness :
    (∑ r ∈ Finset.range 4,
      (tensorCountsHom (r : Int) ((4 : Nat) : Int)
        (numElementsPerRank true
          (adjustedNumElements true ([1000, 2000, 3000] : List Int).length
            ([1000, 2000, 3000] : List Int).sum ((4 : Nat) : Int) 125)
          ((4 : Nat) : Int)) 0 [1000, 2000, 3000]).getD 1 0)
      = ([1000, 2000, 3000] : List Int).getD 1 0 ∧
    numElementsPerRank true 6000 4 = 1500 ∧
    numElementsRemaining true 6000 4 = 0 :=
  ⟨adasum_tensor_counts_conservation.1 [1000, 2000, 3000] 4 125
      (by decide) (by decide) (by decide) (by decide) 1 (by decide),
    (adasum_tensor_counts_conservation.2 125 (by decide) (by decide)).2.1,
    (adasum_tensor_counts_conservation.2 125 (by decide) (by decide)).2.2.1⟩

/-! ## Tensor table, requests and the enqueue API (operations.cc 698-817)

Tensors, outputs and op contexts are external collaborators; entries keep
the fields the scheduler itself reads: name, device, optional broadcast
root, the readiness event (modelled as a time-indexed poll answer, see the
`PerformOperation` section), and the completion callback (modelled by an
identifier; an invocation is the pair of that identifier and the delivered
`Status`). -/

/-- Modelled from the spec: the host (CPU) device identifier used by the
device-capability check (`CPU_DEVICE_ID` lives in a header outside these
sources; only its distinctness from real GPU ids matters here). -/
def CPU_DEVICE_ID : Int := -1

inductive RequestType where
  | ALLREDUCE
  | ALLGATHER
  | BROADCAST
  deriving DecidableEq, Repr

structure Request where
  request_rank : Int
  tensor_name : String
  tensor_type : Int
  device : Int
  request_type : RequestType
  request_root_rank : Option Int
  tensor_shape : List Int
  deriving DecidableEq, Repr

inductive ResponseType where
  | ALLREDUCE
  | ALLGATHER
  | BROADCAST
  | ERROR
  deriving DecidableEq, Repr

structure Response where
  response_type : ResponseType
  tensor_names : List String
  devices : List Int
  error_message : String
  deriving DecidableEq, Repr

structure TensorTableEntry where
  tensor_name : String
  device : Int
  entry_root_rank : Option Int := none
  ready_event : Option (Nat → Bool) := none
  callback : Nat := 0

instance : Inhabited TensorTableEntry := ⟨{ tensor_name := "", device := 0 }⟩

structure ParameterManager where
  hierarchical_allreduce : Bool
  hierarchical_allgather : Bool
  deriving DecidableEq, Repr

structure Controller where
  rank : Int
  local_rank : Int
  size : Int
  local_size : Int
  is_mpi_threads_supported : Bool
  deriving DecidableEq, Repr

structure HorovodGlobalState where
  shut_down : Bool
  initialization_done : Bool
  tensor_table : List (String × TensorTableEntry)
  message_queue : List Request
  controller : Controller

/-- The `Request` built at the top of `EnqueueTensorAllreduce` /
`Allgather` / `Broadcast` (operations.cc 704-712, 744-752, 784-793). -/
def buildRequest (rank : Int) (name : String) (tensor_type device : Int)
    (request_type : RequestType) (request_root_rank : Option Int)
    (tensor_shape : List Int) : Request :=
  { request_rank := rank, tensor_name := name, tensor_type := tensor_type,
    device := device, request_type := request_type,
    request_root_rank := request_root_rank, tensor_shape := tensor_shape }

/-- The `TensorTableEntry` built by the enqueue functions
(operations.cc 714-721, 754-760, 795-803). -/
def buildEntry (name : String) (device : Int) (entry_root_rank : Option Int)
    (ready_event : Option (Nat → Bool)) (callback : Nat) : TensorTableEntry :=
  { tensor_name := name, device := device, entry_root_rank := entry_root_rank,
    ready_event := ready_event, callback := callback }

/-- `EnqueueTensorAllreduce` (operations.cc 698-735): under the process
lock, fail with `SHUT_DOWN_ERROR` when shutting down, with
`DUPLICATE_NAME_ERROR` when the name is already outstanding, else insert
the entry and push the request. -/
def EnqueueTensorAllreduce (st : HorovodGlobalState) (tensor_type : Int)
    (tensor_shape : List Int) (ready_event : Option (Nat → Bool))
    (name : String) (device : Int) (callback : Nat) :
    Status × HorovodGlobalState :=
  let message := buildRequest st.controller.rank name tensor_type device
    RequestType.ALLREDUCE none tensor_shape
  let e := buildEntry name device none ready_event callback
  if st.shut_down then (SHUT_DOWN_ERROR, st)
  else if (st.tensor_table.lookup name).isSome then (DUPLICATE_NAME_ERROR, st)
  else (Status.statusOK,
    { st with tensor_table := st.tensor_table ++ [(name, e)],
              message_queue := st.message_queue ++ [message] })

/-- `EnqueueTensorAllgather` (operations.cc 739-774); same guards, an
allgather entry has no output buffer and no root rank. -/
def EnqueueTensorAllgather (st : HorovodGlobalState) (tensor_type : Int)
    (tensor_shape : List Int) (ready_event : Option (Nat → Bool))
    (name : String) (device : Int) (callback : Nat) :
    Status × HorovodGlobalState :=
  let message := buildRequest st.controller.rank name tensor_type device
    RequestType.ALLGATHER none tensor_shape
  let e := buildEntry name device none ready_event callback
  if st.shut_down then (SHUT_DOWN_ERROR, st)
  else if (st.tensor_table.lookup name).isSome then (DUPLICATE_NAME_ERROR, st)
  else (Status.statusOK,
    { st with tensor_table := st.tensor_table ++ [(name, e)],
              message_queue := st.message_queue ++ [message] })

/-- `EnqueueTensorBroadcast` (operations.cc 778-817); same guards, with the
broadcast root recorded in both the request and the entry. -/
def EnqueueTensorBroadcast (st : HorovodGlobalState) (tensor_type : Int)
    (tensor_shape : List Int) (root_rank : Int)
    (ready_event : Option (Nat → Bool)) (name : String) (device : Int)
    (callback : Nat) : Status × HorovodGlobalState :=
  let message := buildRequest st.controller.rank name tensor_type device
    RequestType.BROADCAST (some root_rank) tensor_shape
  let e := buildEntry name device (some root_rank) ready_event callback
  if st.shut_down then (SHUT_DOWN_ERROR, st)
  else if (st.tensor_table.lookup name).isSome then (DUPLICATE_NAME_ERROR, st)
  else (Status.statusOK,
    { st with tensor_table := st.tensor_table ++ [(name, e)],
              message_queue := st.message_queue ++ [message] })

/-- C2: each of the three enqueue calls returns `SHUT_DOWN_ERROR` with the
state unchanged when the shutdown flag is set; otherwise returns
`DUPLICATE_NAME_ERROR` with the state unchanged when the name already has
an outstanding entry; otherwise returns OK, inserts exactly one entry under
the name and pushes exactly one request onto the message queue. -/
theorem enqueue_tensor_ops_status (st : HorovodGlobalState) (tensor_type : Int)
    (tensor_shape : List Int) (root_rank : Int)
    (ready_event : Option (Nat → Bool)) (name : String) (device : Int)
    (callback : Nat) :
    (st.shut_down = true →
      EnqueueTensorAllreduce st tensor_type tensor_shape ready_event name device callback
          = (SHUT_DOWN_ERROR, st) ∧
      EnqueueTensorAllgather st tensor_type tensor_shape ready_event name device callback
          = (SHUT_DOWN_ERROR, st) ∧
      EnqueueTensorBroadcast st tensor_type tensor_shape root_rank ready_event name device callback
          = (SHUT_DOWN_ERROR, st)) ∧
    (st.shut_down = false → (st.tensor_table.lookup name).isSome = true →
      EnqueueTensorAllreduce st tensor_type tensor_shape ready_event name device callback
          = (DUPLICATE_NAME_ERROR, st) ∧
      EnqueueTensorAllgather st tensor_type tensor_shape ready_event name device callback
          = (DUPLICATE_NAME_ERROR, st) ∧
      EnqueueTensorBroadcast st tensor_type tensor_shape root_rank ready_event name device callback
          = (DUPLICATE_NAME_ERROR, st)) ∧
    (st.shut_down = false → st.tensor_table.lookup name = none →
      EnqueueTensorAllreduce st tensor_type tensor_shape ready_event name device callback
          = (Status.statusOK,
            { st with
              tensor_table := st.tensor_table ++
                [(name, buildEntry name device none ready_event callback)],
              message_queue := st.message_queue ++
                [buildRequest st.controller.rank name tensor_type device
                  RequestType.ALLREDUCE none tensor_shape] }) ∧
      EnqueueTensorAllgather st tensor_type tensor_shape ready_event name device callback
          = (Status.statusOK,
            { st with
              tensor_table := st.tensor_table ++
                [(name, buildEntry name device none ready_event callback)],
              message_queue := st.message_queue ++
                [buildRequest st.controller.rank name tensor_type device
                  RequestType.ALLGATHER none tensor_shape] }) ∧
      EnqueueTensorBroadcast st tensor_type tensor_shape root_rank ready_event name device callback
          = (Status.statusOK,
            { st with
              tensor_table := st.tensor_table ++
                [(name, buildEntry name device (some root_rank) ready_event callback)],
              message_queue := st.message_queue ++
                [buildRequest st.controller.rank name tensor_type device
                  RequestType.BROADCAST (some root_rank) tensor_shape] })) := by
  refine ⟨fun hsd => ?_, fun hsd hdup => ?_, fun hsd hfresh => ?_⟩
  · exact ⟨by simp [EnqueueTensorAllreduce, hsd],
      by simp [EnqueueTensorAllgather, hsd],
      by simp [EnqueueTensorBroadcast, hsd]⟩
  · exact ⟨by simp [EnqueueTensorAllreduce, hsd, hdup],
      by simp [EnqueueTensorAllgather, hsd, hdup],
      by simp [EnqueueTensorBroadcast, hsd, hdup]⟩
  · exact ⟨by simp [EnqueueTensorAllreduce, hsd, hfresh],
      by simp [EnqueueTensorAllgather, hsd, hfresh],
      by simp [EnqueueTensorBroadcast, hsd, hfresh]⟩

/-- A concrete, freshly initialized state for the enqueue witness. -/
def enqueueDemoState : HorovodGlobalState :=
  { shut_down := false, initialization_done := true, tensor_table := [],
    message_queue := [],
    controller := { rank := 0, local_rank := 0, size := 2, local_size := 1,
                    is_mpi_threads_supported := true } }

/-- Closed witness for `enqueue_tensor_ops_status`: shutdown rejection and
a successful fresh-name allreduce enqueue on concrete states. -/
theorem enqueue_tensor_ops_status_witness :
    EnqueueTensorAllreduce { enqueueDemoState with shut_down := true }
        7 [2, 3] none "t" 0 1
      = (SHUT_DOWN_ERROR, { enqueueDemoState with shut_down := true }) ∧
    EnqueueTensorAllreduce enqueueDemoState 7 [2, 3] none "t" 0 1
      = (Status.statusOK,
        { enqueueDemoState with
          tensor_table := [("t", buildEntry "t" 0 none none 1)],
          message_queue := [buildRequest 0 "t" 7 0 RequestType.ALLREDUCE none [2, 3]] }) :=
  ⟨(enqueue_tensor_ops_status { enqueueDemoState with shut_down := true }
      7 [2, 3] 0 none "t" 0 1).1 rfl |>.1,
    (enqueue_tensor_ops_status enqueueDemoState 7 [2, 3] 0 none "t" 0 1).2.2
      rfl rfl |>.1⟩

/-! ## Background-thread shutdown sequence (operations.cc 523-543). -/

/-- The tail of `BackgroundThreadLoop` after the cycle loop exits: set the
shutdown flag, collect every outstanding entry's callback under the lock,
clear the tensor table and the message queue, then invoke each collected
callback with `SHUT_DOWN_ERROR`.  The first component lists the callback
invocations, in order, as (callback, delivered status) pairs. -/
def backgroundThreadShutdown (st : HorovodGlobalState) :
    List (Nat × Status) × HorovodGlobalState :=
  let st1 := { st with shut_down := true }
  let callbacks := st1.tensor_table.map (fun e => e.2.callback)
  let st2 := { st1 with tensor_table := [], message_queue := [] }
  (callbacks.map (fun cb => (cb, SHUT_DOWN_ERROR)), st2)

theorem filter_callback_map (l : List (String × TensorTableEntry)) (cb : Nat) :
    (((l.map (fun e => e.2.callback)).map (fun c => (c, SHUT_DOWN_ERROR))).filter
        (fun p => p.1 == cb)).length
      = (l.filter (fun q => q.2.callback == cb)).length := by
  induction l with
  | nil => rfl
  | cons a t ih =>
      simp only [List.map_cons, List.filter_cons]
      by_cases h : a.2.callback == cb
      · simp only [h, if_pos, List.length_cons, ih]
      · simp only [h, if_neg, Bool.false_eq_true, if_false, ih]

/-- C6: when the background loop exits with N outstanding tensor-table
entries, the shutdown sequence invokes exactly the N entries' callbacks,
each exactly once and each with the shutdown error status, and afterwards
the tensor table and the message queue are empty. -/
theorem shutdown_fails_all_outstanding (st : HorovodGlobalState) :
    (backgroundThreadShutdown st).1
        = st.tensor_table.map (fun e => (e.2.callback, SHUT_DOWN_ERROR)) ∧
    (backgroundThreadShutdown st).1.length = st.tensor_table.length ∧
    (∀ cb : Nat,
      ((backgroundThreadShutdown st).1.filter (fun p => p.1 == cb)).length
        = (st.tensor_table.filter (fun q => q.2.callback == cb)).length) ∧
    (∀ p ∈ (backgroundThreadShutdown st).1, p.2 = SHUT_DOWN_ERROR) ∧
    (backgroundThreadShutdown st).2.tensor_table = [] ∧
    (backgroundThreadShutdown st).2.message_queue = [] ∧
    (backgroundThreadShutdown st).2.shut_down = true := by
  refine ⟨by simp [backgroundThreadShutdown], ?_, ?_, ?_, rfl, rfl, rfl⟩
  · simp [backgroundThreadShutdown]
  · intro cb
    exact filter_callback_map st.tensor_table cb
  · intro p hp
    simp only [backgroundThreadShutdown, List.map_map, List.mem_map] at hp
    obtain ⟨e, _, rfl⟩ := hp
    rfl

/-- A state with two outstanding entries for the shutdown witness. -/
def shutdownDemoState : HorovodGlobalState :=
  { shut_down := false, initialization_done := true,
    tensor_table :=
      [("a", buildEntry "a" 0 none none 11), ("b", buildEntry "b" 1 none none 22)],
    message_queue := [],
    controller := { rank := 0, local_rank := 0, size := 2, local_size := 1,
                    is_mpi_threads_supported := true } }

/-- Closed witness for `shutdown_fails_all_outstanding` on a state with two
outstanding entries: both callbacks receive the shutdown error once, and
the table and queue are empty afterwards. -/
theorem shutdown_fails_all_outstanding_witness :
    (backgroundThreadShutdown shutdownDemoState).1
        = [(11, SHUT_DOWN_ERROR), (22, SHUT_DOWN_ERROR)] ∧
    ((backgroundThreadShutdown shutdownDemoState).1.filter
        (fun p => p.1 == 11)).length = 1 ∧
    (backgroundThreadShutdown shutdownDemoState).2.tensor_table = [] ∧
    (backgroundThreadShutdown shutdownDemoState).2.message_queue = [] :=
  ⟨(shutdown_fails_all_outstanding shutdownDemoState).1,
    (shutdown_fails_all_outstanding shutdownDemoState).2.2.1 11,
    (shutdown_fails_all_outstanding shutdownDemoState).2.2.2.2.1,
    (shutdown_fails_all_outstanding shutdownDemoState).2.2.2.2.2.1⟩

/-! ## Device-capability check of the Adasum hierarchical variant
(`AdasumCudaAllreduceOp::Enabled`, src/unnamed/part_000 lines 263-267). -/

/-- Lines 263-267: `return entries[0].device != CPU_DEVICE_ID;` — the body
reads only the first entry's device; the `param_manager` and `response`
arguments are not consulted. -/
def AdasumCudaAllreduceOp.Enabled (param_manager : ParameterManager)
    (entries : List TensorTableEntry) (response : Response) : Bool :=
  (entries.headD default).device != CPU_DEVICE_ID

/-- A first entry on a GPU device for the `Enabled` theorems. -/
def enabledDemoGpuEntry : TensorTableEntry := { tensor_name := "grad", device := 0 }

/-- A configuration with hierarchical mode turned off. -/
def enabledDemoParamsHierOff : ParameterManager :=
  { hierarchical_allreduce := false, hierarchical_allgather := false }

/-- A single-tensor allreduce response for the `Enabled` theorems. -/
def enabledDemoResponse : Response :=
  { response_type := ResponseType.ALLREDUCE, tensor_names := ["grad"],
    devices := [0], error_message := "" }

/-- C3 counterexample: with hierarchical mode off in the configuration and
a first entry on a GPU device, `Enabled` returns true, so it is not the
claimed conjunction "device is not host AND hierarchical mode is on". -/
theorem adasum_enabled_counterexample :
    ¬ (AdasumCudaAllreduceOp.Enabled enabledDemoParamsHierOff
          [enabledDemoGpuEntry] enabledDemoResponse = true
        ↔ (enabledDemoGpuEntry.device ≠ CPU_DEVICE_ID ∧
            enabledDemoParamsHierOff.hierarchical_allreduce = true)) := by
  simp [AdasumCudaAllreduceOp.Enabled, enabledDemoGpuEntry,
    enabledDemoParamsHierOff, CPU_DEVICE_ID]

/-- C3 (amended): `AdasumCudaAllreduceOp::Enabled` returns true exactly
when the first entry's device is not the host device; the hierarchical-mode
configuration flag is not consulted, so any entry list whose first entry is
on the host device yields false, but hierarchical mode being off does not. -/
theorem adasum_enabled_device_only (param_manager : ParameterManager)
    (entries : List TensorTableEntry) (response : Response)
    (h : entries ≠ []) :
    AdasumCudaAllreduceOp.Enabled param_manager entries response = true
      ↔ (entries.head h).device ≠ CPU_DEVICE_ID := by
  cases entries with
  | nil => exact absurd rfl h
  | cons e rest =>
      simp [AdasumCudaAllreduceOp.Enabled, bne_iff_ne]

/-- Closed witness for `adasum_enabled_device_only` at a concrete GPU
entry and hierarchical-off configuration. -/
theorem adasum_enabled_device_only_witness :
    AdasumCudaAllreduceOp.Enabled enabledDemoParamsHierOff
        [enabledDemoGpuEntry] enabledDemoResponse = true
      ↔ (([enabledDemoGpuEntry] : List TensorTableEntry).head
          (List.cons_ne_nil enabledDemoGpuEntry [])).device ≠ CPU_DEVICE_ID :=
  adasum_enabled_device_only enabledDemoParamsHierOff [enabledDemoGpuEntry]
    enabledDemoResponse (List.cons_ne_nil enabledDemoGpuEntry [])

/-! ## Readiness polling in PerformOperation (operations.cc 289-313)

The device-side readiness of an entry is modelled by its `ready_event`: a
time-indexed poll answer, `ready_event = some f` with `f t` the answer of
the t-th poll pass (`ReadyEvent::Ready()` under the 100ns-sleep loop), and
`ready_event = none` for host tensors that carry no event.  The busy-wait
loop is modelled with explicit fuel, returning the pass index at which the
waiting list drained (the moment `ExecuteOperation` is issued) or `none`
if the fuel ran out, i.e. the loop is still spinning. -/

def readyNow (t : Nat) (e : TensorTableEntry) : Bool :=
  match e.ready_event with
  | some ready => ready t
  | none => true

/-- The `while (!waiting_tensors.empty())` loop of operations.cc 297-308:
every pass erases the entries whose poll answered ready, then sleeps. -/
def waitForData : Nat → Nat → List TensorTableEntry → Option Nat
  | 0, t, waiting => if waiting.isEmpty then some t else none
  | fuel + 1, t, waiting =>
      if waiting.isEmpty then some t
      else waitForData fuel (t + 1) (waiting.filter (fun e => ! readyNow t e))

/-- operations.cc 290-296: only entries with a non-null `ready_event` are
put on the waiting list. -/
def waitingTensors (entries : List TensorTableEntry) : List TensorTableEntry :=
  entries.filter (fun e => e.ready_event.isSome)

/-- The wait phase of `PerformOperation` before the `ExecuteOperation`
call: returns the pass at which execution proceeds, if it ever does. -/
def performOperationWait (fuel : Nat) (entries : List TensorTableEntry) :
    Option Nat :=
  waitForData fuel 0 (waitingTensors entries)

theorem waitForData_le (fuel : Nat) :
    ∀ (t : Nat) (waiting : List TensorTableEntry) (texec : Nat),
      waitForData fuel t waiting = some texec → t ≤ texec := by
  induction fuel with
  | zero =>
      intro t waiting texec h
      unfold waitForData at h
      split at h
      · exact Nat.le_of_eq (Option.some.inj h)
      · exact absurd h (by simp)
  | succ fuel ih =>
      intro t waiting texec h
      unfold waitForData at h
      split at h
      · exact Nat.le_of_eq (Option.some.inj h)
      · exact Nat.le_of_succ_le (ih (t + 1) _ texec h)

theorem waitForData_ready (fuel : Nat) :
    ∀ (t : Nat) (waiting : List TensorTableEntry) (texec : Nat),
      waitForData fuel t waiting = some texec →
      ∀ e ∈ waiting, ∀ f, e.ready_event = some f →
      ∃ s, t ≤ s ∧ s < texec ∧ f s = true := by
  induction fuel with
  | zero =>
      intro t waiting texec h e he f hf
      unfold waitForData at h
      split at h
      · rename_i hemp
        rw [List.isEmpty_iff] at hemp
        subst hemp
        exact absurd he (List.not_mem_nil e)
      · exact absurd h (by simp)
  | succ fuel ih =>
      intro t waiting texec h e he f hf
      unfold waitForData at h
      split at h
      · rename_i hemp
        rw [List.isEmpty_iff] at hemp
        subst hemp
        exact absurd he (List.not_mem_nil e)
      · by_cases hft : f t = true
        · refine ⟨t, le_rfl, ?_, hft⟩
          have := waitForData_le fuel (t + 1) _ texec h
          omega
        · have hkeep : e ∈ waiting.filter (fun x => ! readyNow t x) := by
            rw [List.mem_filter]
            refine ⟨he, ?_⟩
            simp [readyNow, hf, hft]
          obtain ⟨s, hs1, hs2, hs3⟩ := ih (t + 1) _ texec h e hkeep f hf
          exact ⟨s, by omega, hs2, hs3⟩

theorem waitForData_stuck (fuel : Nat) :
    ∀ (t : Nat) (waiting : List TensorTableEntry) (e : TensorTableEntry)
      (f : Nat → Bool), e ∈ waiting → e.ready_event = some f →
      (∀ s, f s = false) → waitForData fuel t waiting = none := by
  induction fuel with
  | zero =>
      intro t waiting e f he hf hnever
      unfold waitForData
      rw [if_neg]
      simp only [List.isEmpty_iff]
      exact List.ne_nil_of_mem he
  | succ fuel ih =>
      intro t waiting e f he hf hnever
      unfold waitForData
      rw [if_neg]
      · refine ih (t + 1) _ e f ?_ hf hnever
        rw [List.mem_filter]
        refine ⟨he, ?_⟩
        simp [readyNow, hf, hnever t]
      · simp only [List.isEmpty_iff]
        exact List.ne_nil_of_mem he

/-- C7: `ExecuteOperation` is issued (the wait loop returns a pass index)
only after every entry with a non-null `ready_event` has answered ready at
least once on an earlier pass; entries with a null `ready_event` are never
placed on the waiting list; and an entry whose event never reports ready
keeps the loop spinning forever, so it is never executed. -/
theorem perform_operation_waits_for_ready :
    (∀ (entries : List TensorTableEntry) (fuel texec : Nat),
      performOperationWait fuel entries = some texec →
      ∀ e ∈ entries, ∀ f, e.ready_event = some f →
      ∃ s, s < texec ∧ f s = true) ∧
    (∀ (entries : List TensorTableEntry) (e : TensorTableEntry),
      e.ready_event = none → e ∉ waitingTensors entries) ∧
    (∀ (entries : List TensorTableEntry) (fuel : Nat) (e : TensorTableEntry)
        (f : Nat → Bool), e ∈ entries → e.ready_event = some f →
      (∀ s, f s = false) → performOperationWait fuel entries = none) := by
  refine ⟨?_, ?_, ?_⟩
  · intro entries fuel texec h e he f hf
    have hw : e ∈ waitingTensors entries := by
      rw [waitingTensors, List.mem_filter]
      exact ⟨he, by simp [hf]⟩
    obtain ⟨s, _, hs2, hs3⟩ := waitForData_ready fuel 0 _ texec h e hw f hf
    exact ⟨s, hs2, hs3⟩
  · intro entries e hnone hmem
    rw [waitingTensors, List.mem_filter] at hmem
    rw [hnone] at hmem
    exact absurd hmem.2 (by simp)
  · intro entries fuel e f he hf hnever
    refine waitForData_stuck fuel 0 _ e f ?_ hf hnever
    rw [waitingTensors, List.mem_filter]
    exact ⟨he, by simp [hf]⟩

/-- A poll stream that answers ready immediately. -/
def demoReadyPoll : Nat → Bool := fun _ => true

/-- An entry carrying the immediately-ready event. -/
def demoReadyEntry : TensorTableEntry :=
  { tensor_name := "g", device := 0, ready_event := some demoReadyPoll, callback := 3 }

/-- Closed witness for `perform_operation_waits_for_ready`: with one
immediately-ready entry the loop drains on pass 0 and execution happens at
pass 1, after the event reported ready. -/
theorem perform_operation_waits_for_ready_witness :
    ∃ s, s < 1 ∧ demoReadyPoll s = true :=
  perform_operation_waits_for_ready.1 [demoReadyEntry] 1 1 rfl
    demoReadyEntry (List.mem_cons_self demoReadyEntry []) demoReadyPoll rfl

/-! ## Exception containment around ExecuteOperation (operations.cc 315-327). -/

/-- Lines 315-320: `try { status = op_manager->ExecuteOperation(...); }
catch (const std::exception& ex) { status = Status::UnknownError(ex.what()); }`.
The execution path's outcome is either a returned `Status` or a thrown
exception carrying a message. -/
def performOperationExecuteStatus (exec_result : Except String Status) : Status :=
  match exec_result with
  | Except.ok s => s
  | Except.error msg => Status.unknownError msg

/-- Lines 322-327: unless the status is in-progress, every entry's callback
is invoked with the final status. -/
def performOperationFinish (entries : List TensorTableEntry) (status : Status) :
    List (Nat × Status) :=
  if status.in_progress then [] else entries.map (fun e => (e.callback, status))

/-- C8: a thrown exception is converted at the single call-site into an
`UnknownError` status carrying the exception message, that status is
delivered to every entry's callback, and every execution outcome (normal
or thrown) yields a `Status` — nothing propagates out of
`PerformOperation`. -/
theorem execute_exception_to_unknown_error :
    (∀ (entries : List TensorTableEntry) (msg : String),
      performOperationExecuteStatus (Except.error msg) = Status.unknownError msg ∧
      performOperationFinish entries (performOperationExecuteStatus (Except.error msg))
        = entries.map (fun e => (e.callback, Status.unknownError msg))) ∧
    (∀ exec_result : Except String Status,
      ∃ st : Status, performOperationExecuteStatus exec_result = st) :=
  ⟨fun entries msg => ⟨rfl, rfl⟩, fun exec_result => ⟨_, rfl⟩⟩

/-! ## Lifecycle queries (operations.cc 658-693). -/

def horovod_rank (st : HorovodGlobalState) : Int :=
  if !st.initialization_done then -1 else st.controller.rank

def horovod_local_rank (st : HorovodGlobalState) : Int :=
  if !st.initialization_done then -1 else st.controller.local_rank

def horovod_size (st : HorovodGlobalState) : Int :=
  if !st.initialization_done then -1 else st.controller.size

def horovod_local_size (st : HorovodGlobalState) : Int :=
  if !st.initialization_done then -1 else st.controller.local_size

def horovod_mpi_threads_supported (st : HorovodGlobalState) : Int :=
  if !st.initialization_done then -1
  else if st.controller.is_mpi_threads_supported then 1 else 0

/-- C9: each lifecycle query returns -1 while initialization has not
completed, and the corresponding controller value (with the
threads-supported boolean encoded as 1/0) once it has. -/
theorem lifecycle_queries_guarded (st : HorovodGlobalState) :
    (st.initialization_done = false →
      horovod_rank st = -1 ∧ horovod_local_rank st = -1 ∧
      horovod_size st = -1 ∧ horovod_local_size st = -1 ∧
      horovod_mpi_threads_supported st = -1) ∧
    (st.initialization_done = true →
      horovod_rank st = st.controller.rank ∧
      horovod_local_rank st = st.controller.local_rank ∧
      horovod_size st = st.controller.size ∧
      horovod_local_size st = st.controller.local_size ∧
      horovod_mpi_threads_supported st
        = (if st.controller.is_mpi_threads_supported then 1 else 0)) := by
  constructor
  · intro h
    refine ⟨?_, ?_, ?_, ?_, ?_⟩ <;>
      simp [horovod_rank, horovod_local_rank, horovod_size, horovod_local_size,
        horovod_mpi_threads_supported, h]
  · intro h
    refine ⟨?_, ?_, ?_, ?_, ?_⟩ <;>
      simp [horovod_rank, horovod_local_rank, horovod_size, horovod_local_size,
        horovod_mpi_threads_supported, h]

/-- A pre-initialization state for the lifecycle witness. -/
def lifecycleDemoState : HorovodGlobalState :=
  { shut_down := false, initialization_done := false, tensor_table := [],
    message_queue := [],
    controller := { rank := 3, local_rank := 1, size := 8, local_size := 4,
                    is_mpi_threads_supported := true } }

/-- Closed witness for `lifecycle_queries_guarded`: before initialization
every query answers -1; after initialization they answer controller values. -/
theorem lifecycle_queries_guarded_witness :
    horovod_rank lifecycleDemoState = -1 ∧
    horovod_mpi_threads_supported lifecycleDemoState = -1 ∧
    horovod_rank { lifecycleDemoState with initialization_done := true } = 3 :=
  ⟨(lifecycle_queries_guarded lifecycleDemoState).1 rfl |>.1,
    (lifecycle_queries_guarded lifecycleDemoState).1 rfl |>.2.2.2.2,
    (lifecycle_queries_guarded
      { lifecycleDemoState with initialization_done := true }).2 rfl |>.1⟩

/-! ## Timeline writer (src/horovod/tensorflow/timeline.cc 40-102)

`Timeline::WriteEvent` keys an `unordered_map` from tensor name to a pid.
`tensor_table_[tensor_name]` default-inserts 0 for a new name; since every
assigned pid is the map size after insertion (hence ≥ 1), the `== 0` test
is exactly "first event for this name", at which point the two
process-metadata JSON records are emitted.  The model keeps the map as an
association list in insertion order (names are never erased) and the
emitted JSON records as an output list; `TimelineRecord.event` carries the
tensor name alongside the emitted pid so the per-name pid consistency can
be stated.  The write path is modelled for a healthy file (the
`file_.good()` early returns drop events wholesale and touch no state). -/

inductive TimelineRecord where
  | processName (pid : Int) (tensor_name : String)
  | processSortIndex (pid : Int) (sort_index : Int)
  | event (pid : Int) (tensor_name : String) (op_name : String) (phase : Char)
  deriving DecidableEq, Repr

structure Timeline where
  tensor_table : List (String × Int)
  output : List TimelineRecord
  deriving DecidableEq, Repr

/-- timeline.cc 60-90: look the name up; a hit reuses the stored pid, a
miss assigns `tensor_table_.size()` counted after the default insertion
(i.e. old size + 1) and emits the two metadata records, then either way
the event record itself is appended. -/
def Timeline.writeEvent (tl : Timeline) (tensor_name op_name : String)
    (phase : Char) : Timeline :=
  match tl.tensor_table.lookup tensor_name with
  | some tensor_idx =>
      { tl with output := tl.output ++
          [TimelineRecord.event tensor_idx tensor_name op_name phase] }
  | none =>
      let tensor_idx : Int := tl.tensor_table.length + 1
      { tensor_table := tl.tensor_table ++ [(tensor_name, tensor_idx)],
        output := tl.output ++
          [TimelineRecord.processName tensor_idx tensor_name,
            TimelineRecord.processSortIndex tensor_idx tensor_idx,
            TimelineRecord.event tensor_idx tensor_name op_name phase] }

def initialTimeline : Timeline := { tensor_table := [], output := [] }

def runTimeline (calls : List (String × String × Char)) : Timeline :=
  calls.foldl (fun tl c => tl.writeEvent c.1 c.2.1 c.2.2) initialTimeline

def isProcessNameFor (p : Int) : TimelineRecord → Bool
  | TimelineRecord.processName q _ => q == p
  | _ => false

def isProcessSortIndexFor (p : Int) : TimelineRecord → Bool
  | TimelineRecord.processSortIndex q _ => q == p
  | _ => false

/-- Number of process-name metadata records emitted for pid `p`. -/
def countProcessName (p : Int) (out : List TimelineRecord) : Nat :=
  (out.filter (isProcessNameFor p)).length

/-- Number of process-sort-index metadata records emitted for pid `p`. -/
def countProcessSortIndex (p : Int) (out : List TimelineRecord) : Nat :=
  (out.filter (isProcessSortIndexFor p)).length

/-- The pids `1, …, n` in order; the table's pid column always equals this. -/
def pidList (n : Nat) : List Int := (List.range n).map (fun (i : Nat) => ((i : Int) + 1))

theorem pidList_succ (n : Nat) : pidList (n + 1) = pidList n ++ [(n : Int) + 1] := by
  simp [pidList, List.range_succ]

theorem pidList_nodup (n : Nat) : (pidList n).Nodup :=
  List.Nodup.map (fun a b hab => by omega) (List.nodup_range n)

theorem mem_pidList_bounds (n : Nat) (p : Int) (h : p ∈ pidList n) :
    1 ≤ p ∧ p ≤ (n : Int) := by
  simp only [pidList, List.mem_map, List.mem_range] at h
  obtain ⟨i, hi, rfl⟩ := h
  omega

theorem lookup_append_some {β : Type} (l1 l2 : List (String × β)) (a : String)
    (b : β) (h : l1.lookup a = some b) : (l1 ++ l2).lookup a = some b := by
  induction l1 with
  | nil => simp [List.lookup] at h
  | cons kv t ih =>
      rw [List.cons_append]
      rw [List.lookup] at h ⊢
      cases hk : a == kv.1 with
      | true => rw [hk] at h; simpa [hk] using h
      | false => rw [hk] at h; simpa [hk] using ih h

theorem lookup_append_none {β : Type} (l1 l2 : List (String × β)) (a : String)
    (h : l1.lookup a = none) : (l1 ++ l2).lookup a = l2.lookup a := by
  induction l1 with
  | nil => simp
  | cons kv t ih =>
      rw [List.cons_append]
      rw [List.lookup] at h ⊢
      cases hk : a == kv.1 with
      | true => rw [hk] at h; simp at h
      | false => rw [hk] at h; simpa [hk] using ih h

theorem countProcessName_append (p : Int) (l1 l2 : List TimelineRecord) :
    countProcessName p (l1 ++ l2) = countProcessName p l1 + countProcessName p l2 := by
  simp [countProcessName, List.filter_append]

theorem countProcessSortIndex_append (p : Int) (l1 l2 : List TimelineRecord) :
    countProcessSortIndex p (l1 ++ l2)
      = countProcessSortIndex p l1 + countProcessSortIndex p l2 := by
  simp [countProcessSortIndex, List.filter_append]

/-- The state invariant of the timeline writer: the pid column is exactly
`1, …, n` in insertion order, each assigned pid has exactly one pair of
metadata records, and every emitted event's pid agrees with the table's
binding for its tensor name. -/
def TimelineInv (tl : Timeline) : Prop :=
  tl.tensor_table.map Prod.snd = pidList tl.tensor_table.length ∧
  (∀ p : Int, countProcessName p tl.output
      = (if p ∈ tl.tensor_table.map Prod.snd then 1 else 0)) ∧
  (∀ p : Int, countProcessSortIndex p tl.output
      = (if p ∈ tl.tensor_table.map Prod.snd then 1 else 0)) ∧
  (∀ (pid : Int) (nm op : String) (ph : Char),
      TimelineRecord.event pid nm op ph ∈ tl.output →
      tl.tensor_table.lookup nm = some pid)

theorem timelineInv_initial : TimelineInv initialTimeline := by
  refine ⟨rfl, ?_, ?_, ?_⟩
  · intro p; simp [countProcessName, initialTimeline, pidList]
  · intro p; simp [countProcessSortIndex, initialTimeline, pidList]
  · intro pid nm op ph h; simp [initialTimeline] at h

theorem timelineInv_writeEvent (tl : Timeline) (name op : String) (ph : Char)
    (h : TimelineInv tl) : TimelineInv (tl.writeEvent name op ph) := by
  obtain ⟨h1, h2, h3, h4⟩ := h
  unfold Timeline.writeEvent
  cases hlook : tl.tensor_table.lookup name with
  | some pid =>
      refine ⟨h1, ?_, ?_, ?_⟩
      · intro p
        rw [countProcessName_append, h2 p]
        simp [countProcessName, isProcessNameFor, List.filter]
      · intro p
        rw [countProcessSortIndex_append, h3 p]
        simp [countProcessSortIndex, isProcessSortIndexFor, List.filter]
      · intro pid2 nm2 op2 ph2 hmem
        rw [List.mem_append] at hmem
        rcases hmem with hold | hnew
        · exact h4 pid2 nm2 op2 ph2 hold
        · rw [List.mem_singleton] at hnew
          injection hnew with e1 e2 e3 e4
          subst e1; subst e2
          exact hlook
  | none =>
      have hlen : (tl.tensor_table ++ [(name, (tl.tensor_table.length : Int) + 1)]).length
          = tl.tensor_table.length + 1 := by simp
      have hsnd : (tl.tensor_table ++ [(name, (tl.tensor_table.length : Int) + 1)]).map Prod.snd
          = pidList (tl.tensor_table.length + 1) := by
        rw [List.map_append, h1, pidList_succ]
        rfl
      have hbound : ∀ p : Int, p ∈ tl.tensor_table.map Prod.snd →
          p ≤ (tl.tensor_table.length : Int) := by
        intro p hp
        rw [h1] at hp
        exact (mem_pidList_bounds _ p hp).2
      have hnotmem : ((tl.tensor_table.length : Int) + 1) ∉ tl.tensor_table.map Prod.snd := by
        intro hc
        have := hbound _ hc
        omega
      have hmemnew : ∀ p : Int,
          (p ∈ (tl.tensor_table ++ [(name, (tl.tensor_table.length : Int) + 1)]).map Prod.snd)
            ↔ (p ∈ tl.tensor_table.map Prod.snd ∨ p = (tl.tensor_table.length : Int) + 1) := by
        intro p
        rw [List.map_append, List.mem_append]
        simp
      refine ⟨by rw [hsnd, hlen], ?_, ?_, ?_⟩
      · intro p
        rw [countProcessName_append, h2 p]
        by_cases hp : p = (tl.tensor_table.length : Int) + 1
        · subst hp
          rw [if_neg hnotmem, if_pos ((hmemnew _).mpr (Or.inr rfl))]
          simp [countProcessName, isProcessNameFor, List.filter]
        · have hiff : p ∈ (tl.tensor_table ++
              [(name, (tl.tensor_table.length : Int) + 1)]).map Prod.snd
              ↔ p ∈ tl.tensor_table.map Prod.snd := by
            rw [hmemnew]
            exact or_iff_left hp
          rw [if_congr hiff rfl rfl]
          have hzero : countProcessName p
              [TimelineRecord.processName ((tl.tensor_table.length : Int) + 1) name,
                TimelineRecord.processSortIndex ((tl.tensor_table.length : Int) + 1)
                  ((tl.tensor_table.length : Int) + 1),
                TimelineRecord.event ((tl.tensor_table.length : Int) + 1) name op ph] = 0 := by
            have hne : (((tl.tensor_table.length : Int) + 1) == p) = false := by
              rw [beq_eq_false_iff_ne]
              intro hc
              exact hp hc.symm
            simp [countProcessName, isProcessNameFor, List.filter, hne]
          rw [hzero]
          exact Nat.add_zero _
      · intro p
        rw [countProcessSortIndex_append, h3 p]
        by_cases hp : p = (tl.tensor_table.length : Int) + 1
        · subst hp
          rw [if_neg hnotmem, if_pos ((hmemnew _).mpr (Or.inr rfl))]
          simp [countProcessSortIndex, isProcessSortIndexFor, List.filter]
        · have hiff : p ∈ (tl.tensor_table ++
              [(name, (tl.tensor_table.length : Int) + 1)]).map Prod.snd
              ↔ p ∈ tl.tensor_table.map Prod.snd := by
            rw [hmemnew]
            exact or_iff_left hp
          rw [if_congr hiff rfl rfl]
          have hzero : countProcessSortIndex p
              [TimelineRecord.processName ((tl.tensor_table.length : Int) + 1) name,
                TimelineRecord.processSortIndex ((tl.tensor_table.length : Int) + 1)
                  ((tl.tensor_table.length : Int) + 1),
                TimelineRecord.event ((tl.tensor_table.length : Int) + 1) name op ph] = 0 := by
            have hne : (((tl.tensor_table.length : Int) + 1) == p) = false := by
              rw [beq_eq_false_iff_ne]
              intro hc
              exact hp hc.symm
            simp [countProcessSortIndex, isProcessSortIndexFor, List.filter, hne]
          rw [hzero]
          exact Nat.add_zero _
      · intro pid2 nm2 op2 ph2 hmem
        rw [List.mem_append] at hmem
        rcases hmem with hold | hnew
        · exact lookup_append_some _ _ _ _ (h4 pid2 nm2 op2 ph2 hold)
        · simp only [List.mem_cons] at hnew
          rcases hnew with he | he | he | he
          · exact absurd he (by simp)
          · exact absurd he (by simp)
          · injection he with e1 e2 e3 e4
            subst e1; subst e2
            rw [lookup_append_none _ _ _ hlook]
            simp [List.lookup]
          · exact absurd he (List.not_mem_nil _)

theorem timelineInv_run (calls : List (String × String × Char)) :
    TimelineInv (runTimeline calls) := by
  have hstep : ∀ (cs : List (String × String × Char)) (tl : Timeline),
      TimelineInv tl →
      TimelineInv (cs.foldl (fun tl c => tl.writeEvent c.1 c.2.1 c.2.2) tl) := by
    intro cs
    induction cs with
    | nil => intro tl htl; exact htl
    | cons c rest ih =>
        intro tl htl
        exact ih _ (timelineInv_writeEvent tl c.1 c.2.1 c.2.2 htl)
  exact hstep calls initialTimeline timelineInv_initial

/-- C10: over any sequence of `WriteEvent` calls, every tensor name in the
timeline's table holds a positive pid, distinct names hold distinct pids,
the process-metadata records for each assigned pid are emitted exactly
once (at first event), and every emitted event for a tensor name carries
that name's table pid — so all subsequent events for the same name carry
the same pid. -/
theorem timeline_pid_assignment (calls : List (String × String × Char)) :
    (∀ np ∈ (runTimeline calls).tensor_table, 1 ≤ np.2) ∧
    (∀ np1 np2 : String × Int, np1 ∈ (runTimeline calls).tensor_table →
      np2 ∈ (runTimeline calls).tensor_table → np1.1 ≠ np2.1 → np1.2 ≠ np2.2) ∧
    (∀ np ∈ (runTimeline calls).tensor_table,
      countProcessName np.2 (runTimeline calls).output = 1 ∧
      countProcessSortIndex np.2 (runTimeline calls).output = 1) ∧
    (∀ (pid : Int) (nm op : String) (ph : Char),
      TimelineRecord.event pid nm op ph ∈ (runTimeline calls).output →
      (runTimeline calls).tensor_table.lookup nm = some pid) := by
  obtain ⟨h1, h2, h3, h4⟩ := timelineInv_run calls
  have hnodup : ((runTimeline calls).tensor_table.map Prod.snd).Nodup := by
    rw [h1]
    exact pidList_nodup _
  refine ⟨?_, ?_, ?_, h4⟩
  · intro np hnp
    have hmem : np.2 ∈ (runTimeline calls).tensor_table.map Prod.snd :=
      List.mem_map_of_mem Prod.snd hnp
    rw [h1] at hmem
    exact (mem_pidList_bounds _ _ hmem).1
  · intro np1 np2 m1 m2 hname heq
    exact hname (congrArg Prod.fst (List.inj_on_of_nodup_map hnodup m1 m2 heq))
  · intro np hnp
    have hmem : np.2 ∈ (runTimeline calls).tensor_table.map Prod.snd :=
      List.mem_map_of_mem Prod.snd hnp
    exact ⟨by rw [h2 np.2, if_pos hmem], by rw [h3 np.2, if_pos hmem]⟩

/-- Two events for the same tensor name, for the timeline witness. -/
def timelineDemoCalls : List (String × String × Char) :=
  [("a", "ALLREDUCE", 'B'), ("a", "ALLREDUCE", 'E')]

/-- Closed witness for `timeline_pid_assignment`: the name "a" gets pid 1,
its metadata is emitted once, and its second event carries the same pid. -/
theorem timeline_pid_assignment_witness :
    countProcessName 1 (runTimeline timelineDemoCalls).output = 1 ∧
    (runTimeline timelineDemoCalls).tensor_table.lookup "a" = some 1 :=
  ⟨((timeline_pid_assignment timelineDemoCalls).2.2.1 ("a", 1) (by decide)).1,
    (timeline_pid_assignment timelineDemoCalls).2.2.2 1 "a" "ALLREDUCE" 'E'
      (by decide)⟩
